import Mathlib

/-!
A shallow embedding of `src/mm.c` (an explicit-free-list dynamic memory
allocator) and proofs about it.

Modelling conventions:
* The program targets a 32-bit machine (the CS:APP malloc-lab environment:
  `size_t` and pointers are 4 bytes, `WSIZE = 4`).  All values read from
  memory are normalised modulo `2^32`, and pointer arithmetic wraps
  modulo `2^32` (`wadd` / `wsub`).
* Memory is word-granular: `mem : Nat → Nat` maps a byte address to the
  32-bit word stored at that address.  Every access performed by the code
  is 4-byte aligned (headers/footers at addresses ≡ 4 (mod 8), free-list
  fields at addresses ≡ 0 (mod 8)), so distinct accessed addresses never
  overlap and the word-granular view is faithful.  `memcpy` is modelled
  word-by-word and is faithful whenever the byte count is a multiple of 4
  (in the code the count is the block size, a multiple of 8, or the
  requested size).
* Uninitialised heap memory (fresh `mem_sbrk` space) keeps whatever the
  `mem` function held there: the model makes the arbitrary contents of
  uninitialised C memory explicit.
* The raw-heap provider `mem_sbrk` (from `memlib.c`, outside src/) is
  modelled from the spec: grows the break, fails (returning the C value
  `(void * )-1`, i.e. `2^32 - 1`) when the break would exceed `maxAddr`.
* The unbounded `for` loops over the free list (`find_fit`,
  `mm_checkheap`) are modelled with an explicit fuel parameter; running
  out of fuel yields the "no answer" result and models only terminating
  prefixes of the scan.
* `exit(1)` in `mm_realloc` is modelled by the distinguished result
  `ReallocResult.terminated`.
-/

namespace MM

/-- 2^32, the modulus of the 32-bit machine model. -/
def W32 : Nat := 4294967296

/-- 32-bit wrapping addition (C pointer/`size_t` addition). -/
def wadd (a b : Nat) : Nat := (a + b) % W32

/-- 32-bit wrapping subtraction (C pointer/`size_t` subtraction). -/
def wsub (a b : Nat) : Nat := (a + (W32 - b % W32)) % W32

/-- The allocator state: memory, the heap break (`mem_brk`), the maximal
legal break (`mem_max_addr`), the heap's lowest address (`mem_heap_lo`),
and the two globals `heap_listp` and `free_listp` of `mm.c`. -/
structure MMState where
  mem : Nat → Nat
  brk : Nat
  maxAddr : Nat
  lo : Nat
  heap_listp : Nat
  free_listp : Nat

/-- `GET(p)`: read the word at address `p` (mm.c line 54). -/
def GET (st : MMState) (p : Nat) : Nat := st.mem p % W32

/-- `PUT(p, val)`: write the word at address `p` (mm.c line 55). -/
def PUT (st : MMState) (p v : Nat) : MMState :=
  { st with mem := fun a => if a = p then v else st.mem a }

/-- `PACK(size, alloc)` (mm.c line 51). -/
def PACK (size alloc : Nat) : Nat := size ||| alloc

/-- `GET_SIZE(p) = GET(p) & ~0x7` (mm.c line 58): clear the low 3 bits. -/
def GET_SIZE (st : MMState) (p : Nat) : Nat := GET st p - GET st p % 8

/-- `GET_ALLOC(p) = GET(p) & 0x1` (mm.c line 59). -/
def GET_ALLOC (st : MMState) (p : Nat) : Nat := GET st p % 2

/-- `HDRP(bp) = bp - WSIZE` (mm.c line 62). -/
def HDRP (bp : Nat) : Nat := wsub bp 4

/-- `FTRP(bp) = bp + GET_SIZE(HDRP(bp)) - DSIZE` (mm.c line 63). -/
def FTRP (st : MMState) (bp : Nat) : Nat :=
  wsub (wadd bp (GET_SIZE st (HDRP bp))) 8

/-- `NEXT_BLKP(bp) = bp + GET_SIZE(bp - WSIZE)` (mm.c line 66). -/
def NEXT_BLKP (st : MMState) (bp : Nat) : Nat :=
  wadd bp (GET_SIZE st (wsub bp 4))

/-- `PREV_BLKP(bp) = bp - GET_SIZE(bp - DSIZE)` (mm.c line 67). -/
def PREV_BLKP (st : MMState) (bp : Nat) : Nat :=
  wsub bp (GET_SIZE st (wsub bp 8))

/-- `NEXT_FREE(bp) = *(void**)(bp + 2*WSIZE)` as an rvalue (mm.c line 69). -/
def NEXT_FREE (st : MMState) (bp : Nat) : Nat := GET st (wadd bp 8)

/-- `PREV_FREE(bp) = *(void**)(bp)` as an rvalue (mm.c line 70). -/
def PREV_FREE (st : MMState) (bp : Nat) : Nat := GET st bp

/-- Modelled from the spec: the Raw Heap Provider `mem_sbrk` of
`memlib.c` (not under src/): on success returns the old break and
advances it by `n`; on failure (break would exceed the bound) returns
`(void * )-1 = 2^32 - 1` and leaves the state unchanged. -/
def mem_sbrk (st : MMState) (n : Nat) : Nat × MMState :=
  if st.brk + n > st.maxAddr then (W32 - 1, st)
  else (st.brk, { st with brk := st.brk + n })

/-- `freelist` (mm.c lines 316-323): push `bp` at the head of the free
list.  The three writes happen in program order. -/
def freelist (st : MMState) (bp : Nat) : MMState :=
  let st1 := PUT st (wadd bp 8) st.free_listp
  let st2 := PUT st1 st.free_listp bp
  let st3 := PUT st2 bp 0
  { st3 with free_listp := bp }

/-- `delete_block` (mm.c lines 325-337): unlink `bp` from the free list.
The final unconditional write reads `NEXT_FREE`/`PREV_FREE` in the state
after the first statement, exactly as the C does. -/
def delete_block (st : MMState) (bp : Nat) : MMState :=
  let st1 :=
    if PREV_FREE st bp ≠ 0 then
      PUT st (wadd (PREV_FREE st bp) 8) (NEXT_FREE st bp)
    else
      { st with free_listp := NEXT_FREE st bp }
  PUT st1 (NEXT_FREE st1 bp) (PREV_FREE st1 bp)

/-- `coalesce` (mm.c lines 274-314): boundary-tag coalescing.  Every
memory read is performed in the state current at that program point. -/
def coalesce (st : MMState) (bp : Nat) : Nat × MMState :=
  let prev_alloc : Bool :=
    (GET_ALLOC st (FTRP st (PREV_BLKP st bp)) != 0) || (PREV_BLKP st bp == bp)
  let next_alloc : Bool := GET_ALLOC st (HDRP (NEXT_BLKP st bp)) != 0
  let size := GET_SIZE st (HDRP bp)
  if prev_alloc && next_alloc then
    (bp, freelist st bp)
  else if prev_alloc && !next_alloc then
    let size2 := size + GET_SIZE st (HDRP (NEXT_BLKP st bp))
    let st1 := delete_block st (NEXT_BLKP st bp)
    let st2 := PUT st1 (HDRP bp) (PACK size2 0)
    let st3 := PUT st2 (FTRP st2 bp) (PACK size2 0)
    (bp, freelist st3 bp)
  else if !prev_alloc && next_alloc then
    let size3 := size + GET_SIZE st (HDRP (PREV_BLKP st bp))
    let bp2 := PREV_BLKP st bp
    let st1 := delete_block st bp2
    let st2 := PUT st1 (HDRP bp2) (PACK size3 0)
    let st3 := PUT st2 (FTRP st2 bp2) (PACK size3 0)
    (bp2, freelist st3 bp2)
  else
    let size4 := size + GET_SIZE st (HDRP (PREV_BLKP st bp))
                      + GET_SIZE st (HDRP (NEXT_BLKP st bp))
    let st1 := delete_block st (PREV_BLKP st bp)
    let st2 := delete_block st1 (NEXT_BLKP st1 bp)
    let bp2 := PREV_BLKP st2 bp
    let st3 := PUT st2 (HDRP bp2) (PACK size4 0)
    let st4 := PUT st3 (FTRP st3 bp2) (PACK size4 0)
    (bp2, freelist st4 bp2)

/-- The two header/footer-clearing writes of `mm_free` (mm.c lines
151-154), split out so that the state passed to `coalesce` can be
named in theorem statements. -/
def free_mark (st : MMState) (bp : Nat) : MMState :=
  let size := GET_SIZE st (HDRP bp)
  let st1 := PUT st (HDRP bp) (PACK size 0)
  PUT st1 (FTRP st1 bp) (PACK size 0)

/-- `mm_free` (mm.c lines 146-156). -/
def mm_free (st : MMState) (bp : Nat) : MMState :=
  if bp = 0 then st
  else (coalesce (free_mark st bp) bp).2

/-- `place` (mm.c lines 233-252).  The split test `csize - asize >=
OVERHEAD` is `size_t` subtraction, hence the wrapping `wsub`. -/
def place (st : MMState) (bp asize : Nat) : MMState :=
  let csize := GET_SIZE st (HDRP bp)
  if 32 ≤ wsub csize asize then
    let st1 := PUT st (HDRP bp) (PACK asize 1)
    let st2 := PUT st1 (FTRP st1 bp) (PACK asize 1)
    let st3 := delete_block st2 bp
    let bp2 := NEXT_BLKP st3 bp
    let st4 := PUT st3 (HDRP bp2) (PACK (wsub csize asize) 0)
    let st5 := PUT st4 (FTRP st4 bp2) (PACK (wsub csize asize) 0)
    (coalesce st5 bp2).2
  else
    let st1 := PUT st (HDRP bp) (PACK csize 1)
    let st2 := PUT st1 (FTRP st1 bp) (PACK csize 1)
    delete_block st2 bp

/-- The loop of `find_fit` (mm.c lines 263-268), starting at `bp`, with
fuel bounding the number of iterations modelled. -/
def find_fit_from (st : MMState) (asize : Nat) : Nat → Nat → Option Nat
  | _, 0 => none
  | bp, fuel+1 =>
    if GET_ALLOC st (HDRP bp) = 0 then
      if asize ≤ GET_SIZE st (HDRP bp) then some bp
      else find_fit_from st asize (NEXT_FREE st bp) fuel
    else none

/-- `find_fit` (mm.c lines 257-269): first-fit scan from the list head. -/
def find_fit (st : MMState) (asize fuel : Nat) : Option Nat :=
  find_fit_from st asize st.free_listp fuel

/-- `extend_heap` (mm.c lines 209-227). On `mem_sbrk` failure it returns
`NULL` (here `none`) before performing any write. -/
def extend_heap (st : MMState) (words : Nat) : Option Nat × MMState :=
  let size := (if words % 2 = 1 then (words + 1) * 4 else words * 4) % W32
  let pr := mem_sbrk st size
  if pr.1 = W32 - 1 then (none, st)
  else
    let st2 := PUT pr.2 (HDRP pr.1) (PACK size 0)
    let st3 := PUT st2 (FTRP st2 pr.1) (PACK size 0)
    let st4 := PUT st3 (HDRP (NEXT_BLKP st3 pr.1)) (PACK 0 1)
    let r := coalesce st4 pr.1
    (some r.1, r.2)

/-- The adjusted block size computed by `mm_malloc` (mm.c lines
124-127), with the `size_t` wrap of `size + OVERHEAD + (DSIZE-1)`. -/
def asizeOf (size : Nat) : Nat :=
  if size ≤ 8 then 40 else 8 * (((size + 39) % W32) / 8)

/-- `mm_malloc` (mm.c lines 113-141).  `fuel` bounds the `find_fit`
scan; the C `size <= 0` test on a `size_t` is `size == 0`. -/
def mm_malloc (st : MMState) (size fuel : Nat) : Option Nat × MMState :=
  if size = 0 then (none, st)
  else
    let asize := asizeOf size
    match find_fit st asize fuel with
    | some bp => (some bp, place st bp asize)
    | none =>
      let extendsize := max asize 32
      match extend_heap st (extendsize / 4) with
      | (none, st1) => (none, st1)
      | (some bp, st1) => (some bp, place st1 bp asize)

/-- `memcpy`, word-granular: copy `k` words forward. -/
def memcpyW : MMState → Nat → Nat → Nat → MMState
  | st, _, _, 0 => st
  | st, dst, src, k+1 =>
    memcpyW (PUT st dst (GET st src)) (wadd dst 4) (wadd src 4) k

/-- `memcpy(dst, src, n)` copying `n / 4` whole words (faithful whenever
`4 ∣ n`; every payload-relevant byte count in `mm_realloc` is). -/
def memcpy (st : MMState) (dst src n : Nat) : MMState :=
  memcpyW st dst src (n / 4)

/-- Result of `mm_realloc`: `terminated` models `exit(1)`. -/
inductive ReallocResult where
  | terminated
  | ok (p : Nat) (st : MMState)

/-- Whether a `ReallocResult` is `terminated`. -/
def ReallocResult.isTerminated : ReallocResult → Bool
  | .terminated => true
  | .ok _ _ => false

/-- `mm_realloc` (mm.c lines 161-178): unconditionally allocate, copy
`min(size, old block size)` bytes, free the old block.  A failed
internal allocation runs `exit(1)`, modelled as `terminated`. -/
def mm_realloc (st : MMState) (ptr size fuel : Nat) : ReallocResult :=
  match mm_malloc st size fuel with
  | (none, _) => .terminated
  | (some newp, st1) =>
    let copySize0 := GET_SIZE st1 (HDRP ptr)
    let copySize := if size < copySize0 then size else copySize0
    let st2 := memcpy st1 newp ptr copySize
    .ok newp (mm_free st2 ptr)

/-- The intermediate state of `mm_realloc` right after its `memcpy`
(mm.c lines 172-175): `copySize` words of the old block copied to the
new one.  Named so that theorems can speak about the state to which
`mm_free` is then applied. -/
def realloc_copy_state (st1 : MMState) (newp ptr size : Nat) : MMState :=
  let copySize0 := GET_SIZE st1 (HDRP ptr)
  let copySize := if size < copySize0 then size else copySize0
  memcpy st1 newp ptr copySize

/-- `mm_init` (mm.c lines 90-108).  The C code checks the `mem_sbrk`
result against `NULL`, not against `(void * )-1`, and assigns
`heap_listp` regardless; the model mirrors this. -/
def mm_init (st : MMState) : Bool × MMState :=
  let pr := mem_sbrk st 64
  let p := pr.1
  let st1 := { pr.2 with heap_listp := p }
  if p = 0 then (false, st1)
  else
    let st2 := PUT st1 p 0
    let st3 := PUT st2 (wadd p 4) (PACK 32 1)
    let st4 := PUT st3 (wadd p 12) 0
    let st5 := PUT st4 (wadd p 8) 0
    let st6 := PUT st5 (wadd p 8) (PACK 32 1)
    let st7 := PUT st6 (wadd p 12) (PACK 0 1)
    let st8 := { st7 with free_listp := wadd p 8 }
    match extend_heap st8 8 with
    | (none, st9) => (false, st9)
    | (some _, st9) => (true, st9)

/-- `check_block` (mm.c lines 339-353), with `mem_heap_lo = lo` and
`mem_heap_hi = brk - 1`. -/
def check_block (st : MMState) (bp : Nat) : Bool :=
  if NEXT_FREE st bp < st.lo || NEXT_FREE st bp > st.brk - 1 then false
  else if PREV_FREE st bp < st.lo || PREV_FREE st bp > st.brk - 1 then false
  else if bp % 8 ≠ 0 then false
  else if GET st (HDRP bp) ≠ GET st (FTRP st bp) then false
  else true

/-- The free-list loop of `mm_checkheap` (mm.c lines 196-200). -/
def checkheap_loop (st : MMState) : Nat → Nat → Bool
  | _, 0 => true
  | bp, fuel+1 =>
    if GET_ALLOC st (HDRP bp) = 0 then
      if check_block st bp then checkheap_loop st (NEXT_FREE st bp) fuel
      else false
    else true

/-- `mm_checkheap` (mm.c lines 183-202), printf diagnostics dropped. -/
def mm_checkheap (st : MMState) (fuel : Nat) : Bool :=
  if GET_SIZE st (HDRP st.heap_listp) ≠ 32
      || GET_ALLOC st (HDRP st.heap_listp) = 0 then false
  else if check_block st st.heap_listp = false then false
  else checkheap_loop st st.free_listp fuel

/-- The free-list nodes visited from `bp`: collect addresses while the
header's allocated bit is clear, following `NEXT_FREE`, up to `fuel`
nodes.  This is exactly the scan order of `find_fit` and of the
`mm_checkheap` loop. -/
def freeChainFrom (st : MMState) : Nat → Nat → List Nat
  | _, 0 => []
  | bp, fuel+1 =>
    if GET_ALLOC st (HDRP bp) = 0 then
      bp :: freeChainFrom st (NEXT_FREE st bp) fuel
    else []

/-- The free-list nodes from the list head. -/
def freeChain (st : MMState) (fuel : Nat) : List Nat :=
  freeChainFrom st st.free_listp fuel

/-- Walk from `bp`: if within `fuel` steps a node with the allocated
header bit set is reached, return the free nodes passed and that
terminator. -/
def chainT (st : MMState) : Nat → Nat → Option (List Nat × Nat)
  | _, 0 => none
  | bp, fuel+1 =>
    if GET_ALLOC st (HDRP bp) = 0 then
      match chainT st (NEXT_FREE st bp) fuel with
      | some (ns, t) => some (bp :: ns, t)
      | none => none
    else some ([], bp)

/-- A memory function built from an association list of crafted initial
words; unlisted addresses hold `d`.  Used to make the arbitrary contents
of uninitialised C memory concrete. -/
def mkMem (l : List (Nat × Nat)) (d : Nat) : Nat → Nat :=
  fun a => (((l.find? (fun q => q.1 = a)).map Prod.snd).getD d)

/-- A fresh pre-`mm_init` state whose uninitialised memory holds the
crafted words `l` (default 0), with the heap starting at address 16. -/
def initState (l : List (Nat × Nat)) : MMState :=
  { mem := mkMem l 0, brk := 16, maxAddr := 1048576, lo := 16,
    heap_listp := 0, free_listp := 0 }

/-- Does the free-list walk from `bp` reach a node with the allocated
header bit set within `fuel` steps?  This is the termination event of
the `find_fit` and `mm_checkheap` loops. -/
def chainStops (st : MMState) : Nat → Nat → Bool
  | _, 0 => false
  | bp, fuel+1 =>
    if GET_ALLOC st (HDRP bp) = 0 then chainStops st (NEXT_FREE st bp) fuel
    else true

/-- The state after `mm_init` on a fresh heap whose uninitialised
memory is all zero. -/
def zInit : MMState := (mm_init (initState [])).2

/-- The state after `mm_init; mm_malloc 1` on the all-zero fresh heap
(the call returns payload pointer 80). -/
def zAfterMalloc : MMState := (mm_malloc zInit 1 10).2

/-- Uninitialised-memory contents for the C1 counterexample: they make
`mm_init`'s first coalesce absorb a junk "previous block", seeding the
free list with a 112-byte block at 40 whose split remainder (at 80,
after `mm_malloc 1`) sees a free-looking junk block at its physical
successor 152. -/
def c1Junk : List (Nat × Nat) := [(72, 40), (36, 80), (48, 24), (148, 16), (160, 24)]

/-- State after `mm_init` on the C1 crafted heap. -/
def c1Init : MMState := (mm_init (initState c1Junk)).2

/-- State after `mm_init; mm_malloc 1` on the C1 crafted heap (the call
returns 40 and splits the 112-byte block). -/
def c1After : MMState := (mm_malloc c1Init 1 10).2

/-- Uninitialised-memory contents for the C3 counterexample: one junk
word (a free-looking size-16 header at 52) inside the gap that
`mm_init` leaves unformatted between its prologue and the first real
free block. -/
def c3Init : MMState := (mm_init (initState [(52, 16)])).2

/-- Uninitialised-memory contents for the C10 counterexample (see the
theorems below): after `mm_init; mm_malloc 1; mm_free 80` the free
list from the head 64 runs into the cycle 16 ↔ 120 of free-marked
nodes and never reaches an allocated-marked terminator. -/
def t10Junk : List (Nat × Nat) := [(72, 16), (60, 64), (120, 1), (64, 120), (12, 16)]

/-- State after `mm_init` on the C10 crafted heap. -/
def t10Init : MMState := (mm_init (initState t10Junk)).2

/-- State after `mm_init; mm_malloc 1` on the C10 crafted heap (the
call returns payload pointer 80). -/
def t10AfterMalloc : MMState := (mm_malloc t10Init 1 10).2

/-- State after `mm_init; mm_malloc 1; mm_free 80` on the C10 crafted
heap. -/
def t10AfterFree : MMState := mm_free t10AfterMalloc 80

end MM

namespace MM

/-! ## Basic word and state lemmas -/

theorem lor_one_of_even (s : Nat) (h : s % 2 = 0) : s ||| 1 = s + 1 := by
  apply Nat.eq_of_testBit_eq
  intro i
  cases i with
  | zero =>
    rw [Nat.testBit_lor, Nat.testBit_zero, Nat.testBit_zero, Nat.testBit_zero]
    have hs : (s + 1) % 2 = 1 := by omega
    simp [hs]
  | succ n =>
    rw [Nat.testBit_lor, Nat.testBit_succ, Nat.testBit_succ, Nat.testBit_succ]
    have h1 : (1 : Nat) / 2 = 0 := by norm_num
    have h2 : (s + 1) / 2 = s / 2 := by omega
    rw [h1, h2, Nat.zero_testBit, Bool.or_false]

theorem PACK_zero (s : Nat) : PACK s 0 = s := Nat.or_zero s

theorem PACK_one (s : Nat) (h : s % 2 = 0) : PACK s 1 = s + 1 :=
  lor_one_of_even s h

theorem W32_pos : 0 < W32 := by norm_num [W32]

theorem GET_lt_W32 (st : MMState) (p : Nat) : GET st p < W32 :=
  Nat.mod_lt _ W32_pos

theorem GET_SIZE_le_GET (st : MMState) (p : Nat) : GET_SIZE st p ≤ GET st p := by
  unfold GET_SIZE; omega

theorem GET_SIZE_lt_W32 (st : MMState) (p : Nat) : GET_SIZE st p < W32 :=
  lt_of_le_of_lt (GET_SIZE_le_GET st p) (GET_lt_W32 st p)

theorem GET_SIZE_mod8 (st : MMState) (p : Nat) : GET_SIZE st p % 8 = 0 := by
  unfold GET_SIZE; omega

theorem wadd_eq (a b : Nat) (h : a + b < W32) : wadd a b = a + b :=
  Nat.mod_eq_of_lt h

theorem wsub_eq (a b : Nat) (hb : b ≤ a) (ha : a < W32) : wsub a b = a - b := by
  unfold wsub
  have hbw : b % W32 = b := Nat.mod_eq_of_lt (lt_of_le_of_lt hb ha)
  rw [hbw]
  have h2 : a + (W32 - b) = (a - b) + W32 := by omega
  rw [h2, Nat.add_mod_right]
  exact Nat.mod_eq_of_lt (by omega)

theorem PUT_brk (st : MMState) (p v : Nat) : (PUT st p v).brk = st.brk := rfl

theorem PUT_free_listp (st : MMState) (p v : Nat) :
    (PUT st p v).free_listp = st.free_listp := rfl

theorem GET_PUT_same (st : MMState) (p v : Nat) : GET (PUT st p v) p = v % W32 := by
  simp [GET, PUT]

theorem GET_PUT_ne (st : MMState) (p v q : Nat) (h : q ≠ p) :
    GET (PUT st p v) q = GET st q := by
  simp [GET, PUT, h]

/-! ## The adjusted request size -/

theorem asizeOf_mod8 (n : Nat) : asizeOf n % 8 = 0 := by
  unfold asizeOf
  split
  · norm_num
  · omega

theorem asizeOf_lt_W32 (n : Nat) : asizeOf n < W32 := by
  unfold asizeOf
  split
  · norm_num [W32]
  · have h : (n + 39) % W32 < W32 := Nat.mod_lt _ W32_pos
    omega

theorem asizeOf_lower (n : Nat) (h : n + 39 < W32) :
    n + 8 ≤ asizeOf n ∧ 40 ≤ asizeOf n := by
  unfold asizeOf
  split
  · omega
  · rename_i hn
    rw [Nat.mod_eq_of_lt h]
    omega

/-! ## Free-list insertion -/

theorem freelist_free_listp (st : MMState) (bp : Nat) :
    (freelist st bp).free_listp = bp := rfl

theorem GET_freelist_self (st : MMState) (bp : Nat) :
    GET (freelist st bp) bp = 0 := by
  simp [freelist, GET, PUT]

/-! ## C5: first-fit search -/

theorem find_fit_from_eq_find? (st : MMState) (asize : Nat) :
    ∀ (fuel bp : Nat), find_fit_from st asize bp fuel
      = (freeChainFrom st bp fuel).find?
          (fun b => decide (asize ≤ GET_SIZE st (HDRP b)))
  | 0, _ => rfl
  | fuel+1, bp => by
    unfold find_fit_from freeChainFrom
    by_cases h : GET_ALLOC st (HDRP bp) = 0
    · simp only [if_pos h]
      by_cases h2 : asize ≤ GET_SIZE st (HDRP bp)
      · simp [List.find?, h2]
      · simp [List.find?, h2, find_fit_from_eq_find? st asize fuel (NEXT_FREE st bp)]
    · simp [if_neg h, List.find?]

/-- C5: for every adjusted request size, `find_fit` scans the free
list linearly starting from the head (`freeChain` is that scan order)
and returns the first block in scan order whose size is at least the
adjusted size, and none when no scanned free block is large enough. -/
theorem find_fit_is_first_fit (st : MMState) (asize fuel : Nat) :
    find_fit st asize fuel
      = (freeChain st fuel).find?
          (fun b => decide (asize ≤ GET_SIZE st (HDRP b))) :=
  find_fit_from_eq_find? st asize fuel st.free_listp

/-- C9: `mm_realloc st p 0` never returns: the internal zero-size
`mm_malloc` yields the null result while leaving the state unchanged,
and `mm_realloc` then runs `exit(1)` (modelled by `terminated`) instead
of freeing `p` or returning null. -/
theorem realloc_zero_terminates (st : MMState) (p fuel : Nat) :
    mm_realloc st p 0 fuel = ReallocResult.terminated
      ∧ mm_malloc st 0 fuel = (none, st) := by
  constructor
  · simp [mm_realloc, mm_malloc]
  · simp [mm_malloc]

/-! ## The four branches of `coalesce` as equations -/

theorem coalesce_case1 (st : MMState) (bp : Nat)
    (hpa : ((GET_ALLOC st (FTRP st (PREV_BLKP st bp)) != 0)
      || (PREV_BLKP st bp == bp)) = true)
    (hna : (GET_ALLOC st (HDRP (NEXT_BLKP st bp)) != 0) = true) :
    coalesce st bp = (bp, freelist st bp) := by
  unfold coalesce
  simp only [hpa, hna, Bool.true_and, Bool.and_true, if_true, ite_true]

theorem coalesce_case2 (st : MMState) (bp : Nat)
    (hpa : ((GET_ALLOC st (FTRP st (PREV_BLKP st bp)) != 0)
      || (PREV_BLKP st bp == bp)) = true)
    (hna : (GET_ALLOC st (HDRP (NEXT_BLKP st bp)) != 0) = false) :
    coalesce st bp =
      (bp,
        let size2 := GET_SIZE st (HDRP bp) + GET_SIZE st (HDRP (NEXT_BLKP st bp))
        let st1 := delete_block st (NEXT_BLKP st bp)
        let st2 := PUT st1 (HDRP bp) (PACK size2 0)
        let st3 := PUT st2 (FTRP st2 bp) (PACK size2 0)
        freelist st3 bp) := by
  unfold coalesce
  simp only [hpa, hna, Bool.true_and, Bool.and_true, Bool.and_false,
    Bool.not_false, Bool.false_eq_true, ite_false, ite_true, if_true, if_false]

theorem coalesce_case3 (st : MMState) (bp : Nat)
    (hpa : ((GET_ALLOC st (FTRP st (PREV_BLKP st bp)) != 0)
      || (PREV_BLKP st bp == bp)) = false)
    (hna : (GET_ALLOC st (HDRP (NEXT_BLKP st bp)) != 0) = true) :
    coalesce st bp =
      (PREV_BLKP st bp,
        let size3 := GET_SIZE st (HDRP bp) + GET_SIZE st (HDRP (PREV_BLKP st bp))
        let bp2 := PREV_BLKP st bp
        let st1 := delete_block st bp2
        let st2 := PUT st1 (HDRP bp2) (PACK size3 0)
        let st3 := PUT st2 (FTRP st2 bp2) (PACK size3 0)
        freelist st3 bp2) := by
  unfold coalesce
  simp only [hpa, hna, Bool.true_and, Bool.and_true, Bool.false_and,
    Bool.not_false, Bool.not_true, Bool.and_self, Bool.false_eq_true,
    ite_false, ite_true, if_true, if_false]

theorem coalesce_case4 (st : MMState) (bp : Nat)
    (hpa : ((GET_ALLOC st (FTRP st (PREV_BLKP st bp)) != 0)
      || (PREV_BLKP st bp == bp)) = false)
    (hna : (GET_ALLOC st (HDRP (NEXT_BLKP st bp)) != 0) = false) :
    coalesce st bp =
      (let size4 := GET_SIZE st (HDRP bp) + GET_SIZE st (HDRP (PREV_BLKP st bp))
                  + GET_SIZE st (HDRP (NEXT_BLKP st bp))
       let st1 := delete_block st (PREV_BLKP st bp)
       let st2 := delete_block st1 (NEXT_BLKP st1 bp)
       let bp2 := PREV_BLKP st2 bp
       let st3 := PUT st2 (HDRP bp2) (PACK size4 0)
       let st4 := PUT st3 (FTRP st3 bp2) (PACK size4 0)
       (bp2, freelist st4 bp2)) := by
  unfold coalesce
  simp only [hpa, hna, Bool.false_and, Bool.and_false, Bool.not_false,
    Bool.and_self, Bool.false_eq_true, ite_false, ite_true, if_true, if_false]

/-- C4: `coalesce` always inserts the resulting block exactly once at
the free-list head (the final state is one `freelist` push of the
returned address: the head becomes that address and its `PREV_FREE`
field becomes null), and when the computed physical predecessor equals
the block itself the predecessor is treated as allocated (the result is
`bp`, no backward merge); when the predecessor is genuinely free and
distinct and the successor allocated, the returned address is the
predecessor's. -/
theorem coalesce_inserts_once_at_head (st : MMState) (bp : Nat) :
    (coalesce st bp).2.free_listp = (coalesce st bp).1
    ∧ GET (coalesce st bp).2 (coalesce st bp).1 = 0
    ∧ (∃ stm : MMState, (coalesce st bp).2 = freelist stm (coalesce st bp).1)
    ∧ (PREV_BLKP st bp = bp → (coalesce st bp).1 = bp)
    ∧ (GET_ALLOC st (FTRP st (PREV_BLKP st bp)) = 0 → PREV_BLKP st bp ≠ bp →
        GET_ALLOC st (HDRP (NEXT_BLKP st bp)) ≠ 0 →
        (coalesce st bp).1 = PREV_BLKP st bp) := by
  cases hpa : ((GET_ALLOC st (FTRP st (PREV_BLKP st bp)) != 0)
      || (PREV_BLKP st bp == bp)) <;>
    cases hna : (GET_ALLOC st (HDRP (NEXT_BLKP st bp)) != 0)
  · rw [coalesce_case4 st bp hpa hna]
    refine ⟨rfl, GET_freelist_self _ _, ⟨_, rfl⟩, ?_, ?_⟩
    · intro h
      simp [h] at hpa
    · intro _ _ h3
      simp [h3] at hna
  · rw [coalesce_case3 st bp hpa hna]
    refine ⟨rfl, GET_freelist_self _ _, ⟨_, rfl⟩, ?_, ?_⟩
    · intro h
      simp [h] at hpa
    · intro _ _ _
      rfl
  · rw [coalesce_case2 st bp hpa hna]
    exact ⟨rfl, GET_freelist_self _ _, ⟨_, rfl⟩, fun _ => rfl,
      fun h1 h2 _ => by simp [h1, h2] at hpa⟩
  · rw [coalesce_case1 st bp hpa hna]
    exact ⟨rfl, GET_freelist_self _ _, ⟨_, rfl⟩, fun _ => rfl,
      fun h1 h2 _ => by simp [h1, h2] at hpa⟩

/-! ## C2: the prologue's header does not equal its footer -/

/-- C2 (code-bug demonstration): after a successful `mm_init` on a
fresh all-zero heap (heap base 16, prologue block pointer
`heap_listp + DSIZE = 24`), the prologue's header word is
`PACK 32 1 = 33` but the word at its footer position (`FTRP`, address
24 + 32 - 8 = 48) is the uninitialised 0: header ≠ footer for the
prologue, and the code's own `mm_checkheap` already reports failure
("Bad prologue header") on this freshly initialised heap. -/
theorem init_prologue_header_ne_footer :
    (mm_init (initState [])).1 = true
    ∧ zInit.heap_listp = 16
    ∧ GET zInit (HDRP (wadd zInit.heap_listp 8)) = PACK 32 1
    ∧ GET zInit (FTRP zInit (wadd zInit.heap_listp 8)) = 0
    ∧ GET zInit (HDRP (wadd zInit.heap_listp 8))
        ≠ GET zInit (FTRP zInit (wadd zInit.heap_listp 8))
    ∧ mm_checkheap zInit 10 = false := by
  decide

/-! ## C3: two physically adjacent free blocks after init -/

/-- C3 (code-bug demonstration): `mm_init` succeeds on a fresh heap
whose uninitialised memory holds one junk word (16 at address 52), yet
the physical block scan from the prologue block (24, size 32,
allocated) immediately yields two distinct adjacent blocks 56 and 72,
both inside the heap and both with a clear allocated bit: the
end-to-end scan finds two physically adjacent free blocks right after
initialisation, before any allocate/free call. -/
theorem init_adjacent_free_blocks :
    (mm_init (initState [(52, 16)])).1 = true
    ∧ c3Init.heap_listp = 16
    ∧ GET c3Init (HDRP 24) = PACK 32 1
    ∧ NEXT_BLKP c3Init 24 = 56
    ∧ GET_ALLOC c3Init (HDRP 56) = 0
    ∧ NEXT_BLKP c3Init 56 = 72
    ∧ GET_ALLOC c3Init (HDRP 72) = 0
    ∧ (56 : Nat) ≠ 72
    ∧ 72 < c3Init.brk := by
  decide

/-! ## C10: how the free-list traversals terminate -/

/-- If two nodes form a `NEXT_FREE` cycle and both headers have the
allocated bit clear, the free-list walk starting at either never
reaches an allocated-marked node, whatever the fuel. -/
theorem chainStops_cycle (st : MMState) (a b : Nat)
    (ha : GET_ALLOC st (HDRP a) = 0) (hb : GET_ALLOC st (HDRP b) = 0)
    (hab : NEXT_FREE st a = b) (hba : NEXT_FREE st b = a) :
    ∀ fuel, chainStops st a fuel = false ∧ chainStops st b fuel = false
  | 0 => ⟨rfl, rfl⟩
  | fuel+1 => by
    have ih := chainStops_cycle st a b ha hb hab hba fuel
    constructor
    · unfold chainStops
      rw [if_pos ha, hab]
      exact ih.2
    · unfold chainStops
      rw [if_pos hb, hba]
      exact ih.1

/-- C10 (counterexample): a reachable state — `mm_init` succeeds on a
fresh heap with the crafted uninitialised words `t10Junk`, `mm_malloc 1`
returns pointer 80, `mm_free 80` frees it — in which the free list from
the head 64 runs into the `NEXT_FREE` cycle 16 ↔ 120 of nodes whose
headers are all marked free: no node of the traversal carries the
allocated bit, so the walk never stops at an allocated-marked node (for
any fuel) and no free-list node's next-pointer designates one. -/
theorem free_list_cycles_after_crafted_free :
    (mm_init (initState t10Junk)).1 = true
    ∧ (mm_malloc t10Init 1 10).1 = some 80
    ∧ t10AfterFree.free_listp = 64
    ∧ GET_ALLOC t10AfterFree (HDRP 64) = 0
    ∧ NEXT_FREE t10AfterFree 64 = 16
    ∧ GET_ALLOC t10AfterFree (HDRP 16) = 0
    ∧ NEXT_FREE t10AfterFree 16 = 120
    ∧ GET_ALLOC t10AfterFree (HDRP 120) = 0
    ∧ NEXT_FREE t10AfterFree 120 = 16
    ∧ (∀ fuel, chainStops t10AfterFree t10AfterFree.free_listp fuel = false) := by
  have hcyc := chainStops_cycle t10AfterFree 16 120 (by decide) (by decide)
    (by decide) (by decide)
  refine ⟨by decide, by decide, by decide, by decide, by decide, by decide,
    by decide, by decide, by decide, ?_⟩
  intro fuel
  cases fuel with
  | zero => rfl
  | succ n =>
    have h64 : GET_ALLOC t10AfterFree (HDRP 64) = 0 := by decide
    have hn64 : NEXT_FREE t10AfterFree 64 = 16 := by decide
    have hfl : t10AfterFree.free_listp = 64 := by decide
    rw [hfl]
    unfold chainStops
    rw [if_pos h64, hn64]
    exact (hcyc n).1

/-- C10 (amended): the free list is terminated by an allocated-marked
node rather than a null pointer — after `mm_init` on a fresh all-zero
heap the single free block 80's next-pointer designates the initial
head position 24 (= `heap_listp + DSIZE`, set at init), whose header
has the allocated bit set, and is not null — and both the `find_fit`
loop and the `mm_checkheap` free-list loop stop at the first node whose
allocated bit is set; but reaching such a node in every reachable state
is not guaranteed (see the counterexample). -/
theorem free_list_terminator_after_init :
    zInit.free_listp = 80
    ∧ GET_ALLOC zInit (HDRP 80) = 0
    ∧ NEXT_FREE zInit 80 = wadd zInit.heap_listp 8
    ∧ GET_ALLOC zInit (HDRP (wadd zInit.heap_listp 8)) = 1
    ∧ NEXT_FREE zInit 80 ≠ 0
    ∧ chainT zInit zInit.free_listp 10 = some ([80], 24)
    ∧ (∀ (st : MMState) (asize bp fuel : Nat), GET_ALLOC st (HDRP bp) ≠ 0 →
        find_fit_from st asize bp (fuel+1) = none)
    ∧ (∀ (st : MMState) (bp fuel : Nat), GET_ALLOC st (HDRP bp) ≠ 0 →
        checkheap_loop st bp (fuel+1) = true) := by
  refine ⟨by decide, by decide, by decide, by decide, by decide, by decide,
    ?_, ?_⟩
  · intro st asize bp fuel h
    unfold find_fit_from
    rw [if_neg h]
  · intro st bp fuel h
    unfold checkheap_loop
    rw [if_neg h]

/-! ## C1: the split remainder is re-coalesced, not plainly reinserted -/

/-- C1 (counterexample): a reachable state — `mm_init` succeeds on a
fresh heap with the crafted uninitialised words `c1Junk` — in which
`mm_malloc 1` finds a 112-byte free block at 40, splits it (adjusted
size 40), and the split remainder at 80 (size 72) has a free physical
successor at 152 (size 16).  The claim says the two would remain
separate free blocks; instead the remainder's header after the call
records the merged size 88 = 72 + 16, and the free list holds the one
merged block. -/
theorem split_remainder_not_separate :
    (mm_init (initState c1Junk)).1 = true
    ∧ (mm_malloc c1Init 1 10).1 = some 40
    ∧ asizeOf 1 = 40
    ∧ GET_SIZE c1Init (HDRP 40) = 112
    ∧ c1Init.free_listp = 40
    ∧ GET_ALLOC c1Init (HDRP 152) = 0
    ∧ GET_SIZE c1Init (HDRP 152) = 16
    ∧ GET c1After (HDRP 40) = PACK 40 1
    ∧ NEXT_BLKP c1After 40 = 80
    ∧ GET c1After (HDRP 80) = PACK 88 0
    ∧ GET_SIZE c1After (HDRP 80) ≠ 72
    ∧ freeChain c1After 10 = [80] := by
  decide

theorem delete_block_of_prev_null (st : MMState) (bp : Nat)
    (h : PREV_FREE st bp = 0) :
    delete_block st bp
      = PUT { st with free_listp := NEXT_FREE st bp } (NEXT_FREE st bp) 0 := by
  unfold delete_block
  rw [if_neg (by simp [h])]
  show PUT _ (NEXT_FREE _ bp) (PREV_FREE _ bp) = _
  rw [show PREV_FREE { st with free_listp := NEXT_FREE st bp } bp = 0 from h]
  rfl

theorem place_split_eq (st : MMState) (bp asize : Nat)
    (h : 32 ≤ wsub (GET_SIZE st (HDRP bp)) asize) :
    place st bp asize =
      (let csize := GET_SIZE st (HDRP bp)
       let st1 := PUT st (HDRP bp) (PACK asize 1)
       let st2 := PUT st1 (FTRP st1 bp) (PACK asize 1)
       let st3 := delete_block st2 bp
       let bp2 := NEXT_BLKP st3 bp
       let st4 := PUT st3 (HDRP bp2) (PACK (wsub csize asize) 0)
       let st5 := PUT st4 (FTRP st4 bp2) (PACK (wsub csize asize) 0)
       (coalesce st5 bp2).2) := by
  simp only [place]
  rw [if_pos h]

theorem GET_set_free_listp (st : MMState) (x c : Nat) :
    GET { st with free_listp := x } c = GET st c := rfl

theorem GET_freelist_ne (st : MMState) (bp c : Nat)
    (h1 : c ≠ wadd bp 8) (h2 : c ≠ st.free_listp) (h3 : c ≠ bp) :
    GET (freelist st bp) c = GET st c := by
  unfold freelist
  show GET (PUT (PUT (PUT st (wadd bp 8) st.free_listp) st.free_listp bp) bp 0) c
    = GET st c
  rw [GET_PUT_ne _ _ _ _ h3, GET_PUT_ne _ _ _ _ h2, GET_PUT_ne _ _ _ _ h1]

/-- C1 (amended): the split remainder is not plainly reinserted into
the free list: in every split, `place` runs the remainder
(`NEXT_BLKP` of the newly allocated front part) through `coalesce`
before returning, so coalescing with the remainder's neighbours is
re-attempted; on the counterexample heap this merges the remainder
(size 72) with its free right neighbour (size 16) into the single free
block of size 88 that ends up at the free-list head. -/
theorem split_remainder_runs_coalesce :
    (∀ (st : MMState) (bp asize : Nat),
      32 ≤ wsub (GET_SIZE st (HDRP bp)) asize →
      place st bp asize =
        (let csize := GET_SIZE st (HDRP bp)
         let st1 := PUT st (HDRP bp) (PACK asize 1)
         let st2 := PUT st1 (FTRP st1 bp) (PACK asize 1)
         let st3 := delete_block st2 bp
         let bp2 := NEXT_BLKP st3 bp
         let st4 := PUT st3 (HDRP bp2) (PACK (wsub csize asize) 0)
         let st5 := PUT st4 (FTRP st4 bp2) (PACK (wsub csize asize) 0)
         (coalesce st5 bp2).2))
    ∧ GET c1After (HDRP 80) = PACK 88 0
    ∧ c1After.free_listp = 80
    ∧ GET_ALLOC c1After (HDRP 80) = 0 :=
  ⟨fun st bp asize h => place_split_eq st bp asize h, by decide, by decide, by decide⟩

/-! ## Preservation of the heap break -/

theorem freelist_brk (st : MMState) (bp : Nat) : (freelist st bp).brk = st.brk := rfl

theorem delete_block_brk (st : MMState) (bp : Nat) :
    (delete_block st bp).brk = st.brk := by
  unfold delete_block
  split <;> rfl

theorem coalesce_brk (st : MMState) (bp : Nat) :
    (coalesce st bp).2.brk = st.brk := by
  cases hpa : ((GET_ALLOC st (FTRP st (PREV_BLKP st bp)) != 0)
      || (PREV_BLKP st bp == bp)) <;>
    cases hna : (GET_ALLOC st (HDRP (NEXT_BLKP st bp)) != 0)
  · rw [coalesce_case4 st bp hpa hna]
    dsimp only []
    rw [freelist_brk, PUT_brk, PUT_brk, delete_block_brk, delete_block_brk]
  · rw [coalesce_case3 st bp hpa hna]
    dsimp only []
    rw [freelist_brk, PUT_brk, PUT_brk, delete_block_brk]
  · rw [coalesce_case2 st bp hpa hna]
    dsimp only []
    rw [freelist_brk, PUT_brk, PUT_brk, delete_block_brk]
  · rw [coalesce_case1 st bp hpa hna]
    rfl

theorem place_brk (st : MMState) (bp asize : Nat) :
    (place st bp asize).brk = st.brk := by
  unfold place
  dsimp only []
  split
  · rw [coalesce_brk, PUT_brk, PUT_brk, delete_block_brk, PUT_brk, PUT_brk]
  · rw [delete_block_brk, PUT_brk, PUT_brk]

/-! ## C6: the no-fit growth path -/

theorem mem_sbrk_of_fail (st : MMState) (n : Nat) (h : st.brk + n > st.maxAddr) :
    mem_sbrk st n = (W32 - 1, st) := by
  unfold mem_sbrk
  rw [if_pos h]

theorem mem_sbrk_of_ok (st : MMState) (n : Nat) (h : ¬ st.brk + n > st.maxAddr) :
    mem_sbrk st n = (st.brk, { st with brk := st.brk + n }) := by
  unfold mem_sbrk
  rw [if_neg h]

theorem extend_heap_of_fail (st : MMState) (words sz : Nat)
    (hsz : (if words % 2 = 1 then (words + 1) * 4 else words * 4) % W32 = sz)
    (h : st.brk + sz > st.maxAddr) :
    extend_heap st words = (none, st) := by
  simp only [extend_heap, hsz, mem_sbrk_of_fail st sz h]
  rw [if_pos trivial]

theorem extend_heap_of_ok (st : MMState) (words sz : Nat)
    (hsz : (if words % 2 = 1 then (words + 1) * 4 else words * 4) % W32 = sz)
    (h : ¬ st.brk + sz > st.maxAddr) (hbrk : st.brk ≠ W32 - 1) :
    extend_heap st words =
      (some (coalesce (PUT (PUT (PUT { st with brk := st.brk + sz }
           (HDRP st.brk) (PACK sz 0))
           (FTRP (PUT { st with brk := st.brk + sz } (HDRP st.brk) (PACK sz 0)) st.brk)
           (PACK sz 0))
         (HDRP (NEXT_BLKP (PUT (PUT { st with brk := st.brk + sz }
           (HDRP st.brk) (PACK sz 0))
           (FTRP (PUT { st with brk := st.brk + sz } (HDRP st.brk) (PACK sz 0)) st.brk)
           (PACK sz 0)) st.brk)) (PACK 0 1)) st.brk).1,
       (coalesce (PUT (PUT (PUT { st with brk := st.brk + sz }
           (HDRP st.brk) (PACK sz 0))
           (FTRP (PUT { st with brk := st.brk + sz } (HDRP st.brk) (PACK sz 0)) st.brk)
           (PACK sz 0))
         (HDRP (NEXT_BLKP (PUT (PUT { st with brk := st.brk + sz }
           (HDRP st.brk) (PACK sz 0))
           (FTRP (PUT { st with brk := st.brk + sz } (HDRP st.brk) (PACK sz 0)) st.brk)
           (PACK sz 0)) st.brk)) (PACK 0 1)) st.brk).2) := by
  simp only [extend_heap, hsz, mem_sbrk_of_ok st sz h]
  rw [if_neg hbrk]

theorem mm_malloc_no_fit_eq (st : MMState) (n fuel : Nat) (hn : ¬ n = 0)
    (hnofit : find_fit st (asizeOf n) fuel = none) :
    mm_malloc st n fuel =
      (match extend_heap st (max (asizeOf n) 32 / 4) with
        | (none, st1) => (none, st1)
        | (some bp, st1) => (some bp, place st1 bp (asizeOf n))) := by
  simp only [mm_malloc, if_neg hn, hnofit]

/-- C6: when `mm_malloc` finds no fit, the heap is grown by exactly
`max (asizeOf n) CHUNKSIZE` bytes: if the raw `mem_sbrk` would fail,
the allocation returns null with the state (heap, break, free list)
exactly unchanged; otherwise the retried placement succeeds — the call
returns a non-null pointer and the final break is the old break plus
exactly that growth amount. -/
theorem malloc_no_fit_growth (st : MMState) (n fuel : Nat)
    (hn : 0 < n) (hbrkW : st.brk + 16 < W32)
    (hnofit : find_fit st (asizeOf n) fuel = none) :
    (st.brk + max (asizeOf n) 32 > st.maxAddr →
      mm_malloc st n fuel = (none, st))
    ∧ (st.brk + max (asizeOf n) 32 ≤ st.maxAddr →
      ∃ p st', mm_malloc st n fuel = (some p, st')
        ∧ st'.brk = st.brk + max (asizeOf n) 32) := by
  have h8 : asizeOf n % 8 = 0 := asizeOf_mod8 n
  have hlt : asizeOf n < W32 := asizeOf_lt_W32 n
  have hmax8 : max (asizeOf n) 32 % 8 = 0 := by
    rcases Nat.le_total (asizeOf n) 32 with h | h
    · rw [Nat.max_eq_right h]
    · rw [Nat.max_eq_left h]
      exact h8
  have hmaxlt : max (asizeOf n) 32 < W32 := by
    rcases Nat.le_total (asizeOf n) 32 with h | h
    · rw [Nat.max_eq_right h]
      norm_num [W32]
    · rw [Nat.max_eq_left h]
      exact hlt
  have hsize : (if (max (asizeOf n) 32 / 4) % 2 = 1
      then (max (asizeOf n) 32 / 4 + 1) * 4
      else (max (asizeOf n) 32 / 4) * 4) % W32 = max (asizeOf n) 32 := by
    rw [if_neg (by omega)]
    rw [show max (asizeOf n) 32 / 4 * 4 = max (asizeOf n) 32 by omega]
    exact Nat.mod_eq_of_lt hmaxlt
  constructor
  · intro hfail
    rw [mm_malloc_no_fit_eq st n fuel (by omega) hnofit,
      extend_heap_of_fail st _ _ hsize hfail]
  · intro hok
    rw [mm_malloc_no_fit_eq st n fuel (by omega) hnofit,
      extend_heap_of_ok st _ _ hsize (by omega)
        (show st.brk ≠ W32 - 1 by omega)]
    refine ⟨_, _, rfl, ?_⟩
    rw [place_brk, coalesce_brk, PUT_brk, PUT_brk, PUT_brk]

/-- Witness for C6: on the heap reached by a fresh `mm_init` (all-zero
memory, single 32-byte free block), a request of 1 byte finds no fit
(adjusted size 40), so the conclusion of the growth theorem holds at
this concrete input. -/
theorem malloc_no_fit_growth_witness :
    (0 : Nat) < 1
    ∧ zInit.brk + 16 < W32
    ∧ find_fit zInit (asizeOf 1) 10 = none
    ∧ ((zInit.brk + max (asizeOf 1) 32 > zInit.maxAddr →
          mm_malloc zInit 1 10 = (none, zInit))
      ∧ (zInit.brk + max (asizeOf 1) 32 ≤ zInit.maxAddr →
          ∃ p st', mm_malloc zInit 1 10 = (some p, st')
            ∧ st'.brk = zInit.brk + max (asizeOf 1) 32)) :=
  ⟨by decide, by decide, by decide,
    malloc_no_fit_growth zInit 1 10 (by decide) (by decide) (by decide)⟩

/-! ## C7: the word-copy of `mm_realloc` -/

theorem GET_memcpyW_frame : ∀ (w : Nat) (st : MMState) (dst src c : Nat),
    (c < dst ∨ dst + 4 * w ≤ c) → dst + 4 * w < W32 →
    GET (memcpyW st dst src w) c = GET st c
  | 0, _, _, _, _, _, _ => rfl
  | w+1, st, dst, src, c, hc, hb => by
    unfold memcpyW
    rw [show wadd dst 4 = dst + 4 from wadd_eq dst 4 (by omega)]
    rw [GET_memcpyW_frame w _ (dst + 4) (wadd src 4) c (by omega) (by omega)]
    exact GET_PUT_ne st dst _ c (by omega)

theorem GET_memcpyW_read : ∀ (w : Nat) (st : MMState) (dst src k : Nat),
    k < w → (src + 4 * w ≤ dst ∨ dst + 4 * w ≤ src) →
    dst + 4 * w < W32 → src + 4 * w < W32 →
    GET (memcpyW st dst src w) (dst + 4 * k) = GET st (src + 4 * k)
  | 0, _, _, _, _, hk, _, _, _ => absurd hk (by omega)
  | w+1, st, dst, src, 0, _, _, hb1, hb2 => by
    unfold memcpyW
    rw [show wadd dst 4 = dst + 4 from wadd_eq _ _ (by omega),
      show wadd src 4 = src + 4 from wadd_eq _ _ (by omega),
      show dst + 4 * 0 = dst by omega,
      GET_memcpyW_frame w _ (dst + 4) (src + 4) dst (by omega) (by omega),
      GET_PUT_same, Nat.mod_eq_of_lt (GET_lt_W32 st src),
      show src + 4 * 0 = src by omega]
  | w+1, st, dst, src, k+1, hk, hd, hb1, hb2 => by
    unfold memcpyW
    rw [show wadd dst 4 = dst + 4 from wadd_eq _ _ (by omega),
      show wadd src 4 = src + 4 from wadd_eq _ _ (by omega),
      show dst + 4 * (k + 1) = (dst + 4) + 4 * k by omega,
      GET_memcpyW_read w _ (dst + 4) (src + 4) k (by omega) (by omega)
        (by omega) (by omega),
      GET_PUT_ne st dst _ ((src + 4) + 4 * k) (by omega),
      show (src + 4) + 4 * k = src + 4 * (k + 1) by omega]

theorem GET_SIZE_eq (st : MMState) (p v : Nat) (h : GET st p = v) :
    GET_SIZE st p = v - v % 8 := by
  unfold GET_SIZE
  rw [h]

theorem free_mark_flp (Y : MMState) (bp : Nat) :
    (free_mark Y bp).free_listp = Y.free_listp := rfl

theorem GET_free_mark_hdr (Y : MMState) (bp s : Nat)
    (hg : GET_SIZE Y (HDRP bp) = s)
    (hlo : 16 ≤ bp) (hs16 : 16 ≤ s) (hW : bp + s + 16 < W32) :
    GET (free_mark Y bp) (bp - 4) = s := by
  have h8 : s % 8 = 0 := by
    rw [← hg]
    exact GET_SIZE_mod8 Y (HDRP bp)
  have eH : HDRP bp = bp - 4 := wsub_eq bp 4 (by omega) (by omega)
  unfold free_mark
  dsimp only []
  rw [hg, PACK_zero, eH]
  have g1 : GET (PUT Y (bp - 4) s) (bp - 4) = s := by
    rw [GET_PUT_same]
    exact Nat.mod_eq_of_lt (by omega)
  have eF : FTRP (PUT Y (bp - 4) s) bp = bp + s - 8 := by
    unfold FTRP
    rw [eH, GET_SIZE_eq _ _ _ g1, show s - s % 8 = s by omega,
      wadd_eq _ _ (by omega), wsub_eq _ _ (by omega) (by omega)]
  rw [eF, GET_PUT_ne _ _ _ _ (by omega)]
  exact g1

theorem mm_free_case1_eq (st : MMState) (bp : Nat) (hbp : ¬ bp = 0)
    (hpa : ((GET_ALLOC (free_mark st bp)
        (FTRP (free_mark st bp) (PREV_BLKP (free_mark st bp) bp)) != 0)
      || (PREV_BLKP (free_mark st bp) bp == bp)) = true)
    (hna : (GET_ALLOC (free_mark st bp)
        (HDRP (NEXT_BLKP (free_mark st bp) bp)) != 0) = true) :
    mm_free st bp = freelist (free_mark st bp) bp := by
  unfold mm_free
  rw [if_neg hbp, coalesce_case1 (free_mark st bp) bp hpa hna]

theorem mm_realloc_of_malloc (st st1 : MMState) (ptr n newp fuel : Nat)
    (hm : mm_malloc st n fuel = (some newp, st1)) :
    mm_realloc st ptr n fuel
      = ReallocResult.ok newp (mm_free (realloc_copy_state st1 newp ptr n) ptr) := by
  unfold mm_realloc
  rw [hm]
  rfl

/-- C7: when the internal allocation of `mm_realloc st ptr n` succeeds
with a fresh block `newp` that is disjoint from the old block, and `n`
is at least the old block's payload capacity, the call returns `newp`
after copying and then freeing the old block (`mm_free` applied to the
post-copy state), every payload word of the old block is preserved at
the new pointer, and the old block's header ends up with its allocated
bit clear.  The frame hypotheses say the allocation and the free do not
scribble over the regions involved, and the neighbour hypotheses place
the freed block's physical neighbours in the allocated state
(`coalesce` case 1). -/
theorem realloc_preserves_payload (st st1 : MMState) (ptr n newp fuel : Nat)
    (hm : mm_malloc st n fuel = (some newp, st1))
    (hlo : 16 ≤ ptr)
    (hbs : 16 ≤ GET_SIZE st (HDRP ptr))
    (hW1 : ptr + GET_SIZE st (HDRP ptr) + 16 < W32)
    (hW2 : newp + GET_SIZE st (HDRP ptr) + 16 < W32)
    (hsz : GET_SIZE st (HDRP ptr) - 8 ≤ n)
    (hold : ∀ a, a < ptr + GET_SIZE st (HDRP ptr) - 4 → ptr - 4 ≤ a →
      GET st1 a = GET st a)
    (hdisj : ptr + GET_SIZE st (HDRP ptr) ≤ newp
      ∨ newp + GET_SIZE st (HDRP ptr) ≤ ptr - 4)
    (hprev : ((GET_ALLOC (free_mark (realloc_copy_state st1 newp ptr n) ptr)
        (FTRP (free_mark (realloc_copy_state st1 newp ptr n) ptr)
          (PREV_BLKP (free_mark (realloc_copy_state st1 newp ptr n) ptr) ptr)) != 0)
      || (PREV_BLKP (free_mark (realloc_copy_state st1 newp ptr n) ptr) ptr
          == ptr)) = true)
    (hnext : (GET_ALLOC (free_mark (realloc_copy_state st1 newp ptr n) ptr)
        (HDRP (NEXT_BLKP (free_mark (realloc_copy_state st1 newp ptr n) ptr) ptr))
          != 0) = true)
    (hflp : (realloc_copy_state st1 newp ptr n).free_listp ≠ ptr - 4)
    (hff : ∀ k, k < (GET_SIZE st (HDRP ptr) - 8) / 4 →
        GET (mm_free (realloc_copy_state st1 newp ptr n) ptr) (newp + 4 * k)
          = GET (realloc_copy_state st1 newp ptr n) (newp + 4 * k)) :
    mm_realloc st ptr n fuel
        = ReallocResult.ok newp (mm_free (realloc_copy_state st1 newp ptr n) ptr)
    ∧ (∀ k, k < (GET_SIZE st (HDRP ptr) - 8) / 4 →
        GET (mm_free (realloc_copy_state st1 newp ptr n) ptr) (newp + 4 * k)
          = GET st (ptr + 4 * k))
    ∧ GET (mm_free (realloc_copy_state st1 newp ptr n) ptr) (ptr - 4) % 2 = 0 := by
  have eH : HDRP ptr = ptr - 4 := wsub_eq ptr 4 (by omega) (by omega)
  rw [eH] at hbs hW1 hW2 hsz hold hdisj hff ⊢
  have hb8 : GET_SIZE st (ptr - 4) % 8 = 0 := GET_SIZE_mod8 st (ptr - 4)
  obtain ⟨bs, hbsdef⟩ : ∃ b, b = GET_SIZE st (ptr - 4) := ⟨_, rfl⟩
  rw [← hbsdef] at hbs hW1 hW2 hsz hold hdisj hff hb8 ⊢
  -- the old block's header survives the internal allocation and the copy
  have hold4 : GET st1 (ptr - 4) = GET st (ptr - 4) :=
    hold (ptr - 4) (by omega) (by omega)
  have hbs1 : GET_SIZE st1 (HDRP ptr) = bs := by
    rw [eH]
    unfold GET_SIZE
    rw [hold4]
    unfold GET_SIZE at hbsdef
    omega
  obtain ⟨w, hwdef⟩ : ∃ w, w = (if n < bs then n else bs) / 4 := ⟨_, rfl⟩
  have hst2 : realloc_copy_state st1 newp ptr n = memcpyW st1 newp ptr w := by
    unfold realloc_copy_state memcpy
    dsimp only []
    rw [hbs1, hwdef]
  have hw1 : (bs - 8) / 4 ≤ w := by
    rw [hwdef]
    rcases Nat.lt_or_ge n bs with h | h
    · rw [if_pos h]
      omega
    · rw [if_neg (by omega)]
      omega
  have hw2 : 4 * w ≤ bs := by
    rw [hwdef]
    rcases Nat.lt_or_ge n bs with h | h
    · rw [if_pos h]
      omega
    · rw [if_neg (by omega)]
      omega
  -- the copy state agrees with the pre-call state on the old block
  have hst2old : ∀ a, a < ptr + bs - 4 → ptr - 4 ≤ a →
      GET (realloc_copy_state st1 newp ptr n) a = GET st a := by
    intro a ha1 ha2
    rw [hst2, GET_memcpyW_frame w st1 newp ptr a (by omega) (by omega)]
    exact hold a ha1 ha2
  have hbs2 : GET_SIZE (realloc_copy_state st1 newp ptr n) (HDRP ptr) = bs := by
    rw [eH]
    unfold GET_SIZE
    rw [hst2old (ptr - 4) (by omega) (by omega)]
    unfold GET_SIZE at hbsdef
    omega
  refine ⟨mm_realloc_of_malloc st st1 ptr n newp fuel hm, ?_, ?_⟩
  · intro k hk
    rw [hff k hk, hst2,
      GET_memcpyW_read w st1 newp ptr k (by omega) (by omega) (by omega) (by omega)]
    exact hold (ptr + 4 * k) (by omega) (by omega)
  · rw [mm_free_case1_eq (realloc_copy_state st1 newp ptr n) ptr (by omega)
      hprev hnext]
    rw [GET_freelist_ne _ ptr (ptr - 4)
      (by rw [wadd_eq _ _ (by omega)]; omega)
      (by rw [free_mark_flp]; exact Ne.symm hflp) (by omega)]
    rw [GET_free_mark_hdr (realloc_copy_state st1 newp ptr n) ptr bs
      hbs2 (by omega) (by omega) (by omega)]
    omega

/-- Witness for C7: on the heap reached by `mm_init; mm_malloc 1`
(all-zero fresh memory), reallocating the returned block 80 (block
size 40) to 40 bytes returns the fresh block 120, preserves all eight
payload words, and clears the old header's allocated bit. -/
theorem realloc_preserves_payload_witness :
    mm_realloc zAfterMalloc 80 40 10
        = ReallocResult.ok 120
            (mm_free (realloc_copy_state (mm_malloc zAfterMalloc 40 10).2 120 80 40) 80)
    ∧ (∀ k, k < (GET_SIZE zAfterMalloc (HDRP 80) - 8) / 4 →
        GET (mm_free (realloc_copy_state (mm_malloc zAfterMalloc 40 10).2 120 80 40) 80)
            (120 + 4 * k)
          = GET zAfterMalloc (80 + 4 * k))
    ∧ GET (mm_free (realloc_copy_state (mm_malloc zAfterMalloc 40 10).2 120 80 40) 80)
        (80 - 4) % 2 = 0 :=
  realloc_preserves_payload zAfterMalloc (mm_malloc zAfterMalloc 40 10).2 80 40 120 10
    (by
      have h1 : (mm_malloc zAfterMalloc 40 10).1 = some 120 := by decide
      calc mm_malloc zAfterMalloc 40 10
          = ((mm_malloc zAfterMalloc 40 10).1, (mm_malloc zAfterMalloc 40 10).2) := rfl
        _ = (some 120, (mm_malloc zAfterMalloc 40 10).2) := by rw [h1])
    (by decide) (by decide) (by decide) (by decide) (by decide)
    (by decide) (by decide) (by decide) (by decide) (by decide) (by decide)

/-- C8: the claim quantifies over every n > 0, and fails: the adjusted-size
computation of `mm_malloc` (mm.c line 127) adds `OVERHEAD + (DSIZE-1) = 39`
in `size_t` arithmetic, which wraps modulo 2^32.  On the heap reached by
`mm_init` (all-zero fresh memory), the request n = 2^32 - 8 = 4294967288
yields adjusted size 8 * (((n + 39) mod 2^32) / 8) = 24, so the call
SUCCEEDS, returning pointer 80 to a block marked allocated of total size
only 32 — its usable size (32 minus the 8 bytes of header and footer) is
24, far below the requested n, refuting "usable size at least n". -/
theorem malloc_overflow_small_block :
    asizeOf 4294967288 = 24
    ∧ (mm_malloc zInit 4294967288 10).1 = some 80
    ∧ GET_ALLOC (mm_malloc zInit 4294967288 10).2 (HDRP 80) = 1
    ∧ GET_SIZE (mm_malloc zInit 4294967288 10).2 (HDRP 80) = 32
    ∧ GET_SIZE (mm_malloc zInit 4294967288 10).2 (HDRP 80) < 4294967288 := by
  decide

end MM
